import Mathlib

/-!
Shallow embedding of `SentimentAnalysisChain` from
`src/libs/langchain/langchain/chains/sentimental_analysis/base.py`.

The chain builds a prompt, calls a language model, parses the response with a
regular expression, optionally remaps the extracted label, and formats the
result.  The external model call is modelled as a function from the input
value to the response string; the framework wrapper around `_call` (class
`Chain`, not part of the sources) adds no behavior relevant to the claims, so
`run` is modelled as `_call`.  Python floats are modelled exactly as rationals;
strings are ASCII, matching every string the claims mention.
-/

/-- One character of the regex class `\w` (the label capture of the strict
pattern on line 117 of `base.py`), restricted to ASCII. -/
def isWordChar (c : Char) : Bool := c.isAlphanum || c == '_'

/-- One character of the regex class `[\d.]` (the score capture of both
patterns in `base.py`). -/
def isScoreChar (c : Char) : Bool := c.isDigit || c == '.'

/-- Models Python `str.strip()`: drops leading and trailing whitespace. -/
def pyStrip (s : String) : String :=
  String.mk (((s.data.dropWhile Char.isWhitespace).reverse.dropWhile
    Char.isWhitespace).reverse)

/-- Models Python `str.lower()`, restricted to ASCII. -/
def pyLower (s : String) : String := String.mk (s.data.map Char.toLower)

/-- Value of a list of decimal digits, most significant first. -/
def digitsToNat (l : List Char) : Nat := l.foldl (fun n c => 10 * n + (c.toNat - 48)) 0

/-- Models Python `float(s)` on the strings the score capture group `[\d.]+`
can produce (digits and dots only; every call site in the embedding satisfies
this, so the `none` answer on other strings is never exercised).  `float`
raises `ValueError` when there is no digit or more than one dot; that is the
`none` case.  The parsed value is kept as an exact rational. -/
def pyFloat? (s : String) : Option ℚ :=
  let l := s.data
  if !(l.all isScoreChar) then none
  else if !(l.any Char.isDigit) then none
  else if 2 ≤ (l.filter (fun c => c == '.')).length then none
  else
    let ip := l.takeWhile (fun c => c ≠ '.')
    let rest := l.dropWhile (fun c => c ≠ '.')
    match rest with
    | [] => some ((digitsToNat ip : ℕ) : ℚ)
    | _ :: fp => some (OfScientific.ofScientific (digitsToNat (ip ++ fp)) true fp.length)

/-- Drops `p` from the front of `l`, returning the remainder, or `none` when
`p` is not a prefix of `l`. -/
def stripPrefixChars : List Char → List Char → Option (List Char)
  | [], l => some l
  | _ :: _, [] => none
  | p :: ps, c :: cs => if c = p then stripPrefixChars ps cs else none

/-- The characters of the literal part `"Sentiment: "` shared by both regex
patterns in `base.py`. -/
def headerChars : List Char := "Sentiment: ".data

/-- The characters of the literal part `" (Score: "` of both regex patterns. -/
def delimChars : List Char := " (Score: ".data

/-- Matches the part of both regex patterns that follows the label capture:
the literal `" (Score: "`, then the greedy capture `([\d.]+)`, then the
literal `")"`.  Greedy matching of `[\d.]+` needs no backtracking because `)`
is not in the class.  Returns the score capture. -/
def scoreTail (l : List Char) : Option (List Char) :=
  match stripPrefixChars delimChars l with
  | none => none
  | some r =>
    let sc := r.takeWhile isScoreChar
    let r2 := r.dropWhile isScoreChar
    if sc.isEmpty then none
    else
      match r2 with
      | ')' :: _ => some sc
      | _ => none

/-- Attempts the strict pattern `Sentiment: (\w+) \(Score: ([\d.]+)\)`
(line 117 of `base.py`) anchored at the head of `l`, returning the two
captures.  Greedy matching of `\w+` needs no backtracking because the next
pattern character is a space, which is not a word character. -/
def matchStrictAt (l : List Char) : Option (List Char × List Char) :=
  match stripPrefixChars headerChars l with
  | none => none
  | some r =>
    let lab := r.takeWhile isWordChar
    let r2 := r.dropWhile isWordChar
    if lab.isEmpty then none
    else
      match scoreTail r2 with
      | none => none
      | some sc => some (lab, sc)

/-- Models `re.search` with the strict pattern: tries each start position from
the left and keeps the first (leftmost) match. -/
def searchStrictAux : List Char → Option (List Char × List Char)
  | [] => none
  | c :: rest =>
    match matchStrictAt (c :: rest) with
    | some r => some r
    | none => searchStrictAux rest

/-- Leftmost match of `Sentiment: (\w+) \(Score: ([\d.]+)\)` in `s`, as raw
capture strings, or `none` when no substring matches. -/
def searchStrict (s : String) : Option (String × String) :=
  (searchStrictAux s.data).map (fun p => (String.mk p.1, String.mk p.2))

/-- The lazy label capture `(.+?)` of the permissive pattern (line 152 of
`base.py`): having already consumed `accRev` (reversed) into the label, try to
consume one more character `c` (any character except a newline, since `.` does
not match `\n`) and then match the rest of the pattern; on failure extend the
label, exactly as the backtracking engine does for a lazy quantifier. -/
def permissiveFrom (accRev : List Char) : List Char → Option (List Char × List Char)
  | [] => none
  | c :: rest =>
    if c = '\n' then none
    else
      match scoreTail rest with
      | some sc => some ((c :: accRev).reverse, sc)
      | none => permissiveFrom (c :: accRev) rest

/-- Attempts the permissive pattern `Sentiment: (.+?) \(Score: ([\d.]+)\)`
anchored at the head of `l`, returning the two captures. -/
def matchPermissiveAt (l : List Char) : Option (List Char × List Char) :=
  match stripPrefixChars headerChars l with
  | none => none
  | some r => permissiveFrom [] r

/-- Models `re.search` with the permissive pattern: leftmost match. -/
def searchPermissiveAux : List Char → Option (List Char × List Char)
  | [] => none
  | c :: rest =>
    match matchPermissiveAt (c :: rest) with
    | some r => some r
    | none => searchPermissiveAux rest

/-- Leftmost match of `Sentiment: (.+?) \(Score: ([\d.]+)\)` in `s`, as raw
capture strings, or `none` when no substring matches. -/
def searchPermissive (s : String) : Option (String × String) :=
  (searchPermissiveAux s.data).map (fun p => (String.mk p.1, String.mk p.2))

/-- The value found under the chain's input key: either a single text or, for
batch processing, a list of texts (Python is dynamically typed; the branch on
line 91 of `base.py` inspects which one it is). -/
inductive InputVal where
  | str (s : String)
  | list (l : List String)
deriving DecidableEq

/-- The sentiment dictionary built from an extraction.  `_process_single_input`
builds `empty` (no match, line 147) or `labelScore` (lines 129-132, both
fields always).  `process_llm_results` can also build `labelOnly`
(line 169). -/
inductive SentimentDict where
  | empty
  | labelOnly (label : String)
  | labelScore (label : String) (score : ℚ)
deriving DecidableEq

/-- The value `_process_single_input` returns: a one-key dictionary
`{output_key: sentiment}` for the json format (and for an extraction miss), or
a formatted string for the text format. -/
inductive ProcOutput where
  | json (key : String) (value : SentimentDict)
  | text (s : String)
deriving DecidableEq

/-- The value `_call` returns: a single result or, in batch mode, the list of
per-element results. -/
inductive CallOutput where
  | single (r : ProcOutput)
  | batch (rs : List ProcOutput)
deriving DecidableEq

/-- The exceptions the modelled code can raise: the `ValueError` of line 145
naming the unsupported output format, the `ValueError` that `float()` raises
on a malformed numeral, and the `AttributeError` raised when
`sentiment_label_mapping` is `None` and `.get` is called on it. -/
inductive ChainError where
  | unsupportedFormat (fmt : String)
  | parseError (s : String)
  | attributeError
deriving DecidableEq

/-- The configuration fields of `SentimentAnalysisChain` (lines 33-48 of
`base.py`) with their pydantic defaults; `verbose` is inherited from `Chain`.
`sentiment_label_mapping` is declared `Optional` with `default_factory=dict`,
so direct construction without the field yields the empty mapping `some []`,
while an explicit `None` yields `none`.  A Python dict with unique keys is
modelled as an association list. -/
structure SentimentAnalysisChain where
  input_key : String := "question"
  output_key : String := "sentiment"
  include_score : Bool := true
  output_format : String := "json"
  sentiment_label_mapping : Option (List (String × String)) := some []
  batch_processing : Bool := false
  verbose : Bool := false

/-- Models Python `dict.get(k)` on an association list with unique keys. -/
def dictGet (m : List (String × String)) (k : String) : Option String :=
  (m.find? (fun p => p.1 = k)).map Prod.snd

/-- Whether a sentiment dictionary carries the `sentiment_score` field. -/
def hasScoreField : SentimentDict → Bool
  | .labelScore _ _ => true
  | _ => false

/-- Models `_process_single_input` (lines 100-149 of `base.py`).  `llm` is the
model-calling capability `llm_chain.predict(question=text, ...)`; `showFloat`
models Python `str()` on the float placed into the text-format f-string.  The
observability calls (`run_manager.on_text`, `print`) do not affect the value
and are modelled by the instrumented variant `processSingleSink` below. -/
def processSingleInput (cfg : SentimentAnalysisChain) (llm : InputVal → String)
    (showFloat : ℚ → String) (text : InputVal) : Except ChainError ProcOutput :=
  let llm_output := llm text
  match searchStrict llm_output with
  | some (g1, g2) =>
    let sentiment_label := pyStrip g1
    match pyFloat? (pyStrip g2) with
    | none => .error (.parseError (pyStrip g2))
    | some sentiment_score =>
      match cfg.sentiment_label_mapping with
      | none => .error .attributeError
      | some m =>
        let sentiment_label := (dictGet m sentiment_label).getD sentiment_label
        if pyLower cfg.output_format = "json" then
          .ok (.json cfg.output_key (.labelScore sentiment_label sentiment_score))
        else if pyLower cfg.output_format = "text" then
          .ok (.text ("Sentiment Label: " ++ sentiment_label ++
            "\nSentiment Score: " ++ showFloat sentiment_score))
        else
          .error (.unsupportedFormat cfg.output_format)
  | none => .ok (.json cfg.output_key .empty)

/-- Models the list comprehension of lines 92-95: process the elements in
order, aborting at the first raised exception. -/
def processBatch (cfg : SentimentAnalysisChain) (llm : InputVal → String)
    (showFloat : ℚ → String) : List String → Except ChainError (List ProcOutput)
  | [] => .ok []
  | t :: ts =>
    match processSingleInput cfg llm showFloat (.str t) with
    | .error e => .error e
    | .ok r =>
      match processBatch cfg llm showFloat ts with
      | .error e => .error e
      | .ok rs => .ok (r :: rs)

/-- Models `_call` (lines 82-98 of `base.py`): batch mode maps the single-text
procedure over a list-valued input; otherwise the value is processed once. -/
def sentimentCall (cfg : SentimentAnalysisChain) (llm : InputVal → String)
    (showFloat : ℚ → String) : InputVal → Except ChainError CallOutput
  | .list l =>
    if cfg.batch_processing then
      (processBatch cfg llm showFloat l).map .batch
    else
      (processSingleInput cfg llm showFloat (.list l)).map .single
  | .str s => (processSingleInput cfg llm showFloat (.str s)).map .single

/-- Models the helper `process_llm_results` (lines 151-170 of `base.py`): the
permissive pattern, and the score field included only when `include_score`. -/
def process_llm_results (cfg : SentimentAnalysisChain) (text : String) :
    Except ChainError SentimentDict :=
  match searchPermissive text with
  | some (g1, g2) =>
    let sentiment_label := pyStrip g1
    match pyFloat? (pyStrip g2) with
    | none => .error (.parseError (pyStrip g2))
    | some sentiment_score =>
      match cfg.sentiment_label_mapping with
      | none => .error .attributeError
      | some m =>
        let l := (dictGet m sentiment_label).getD sentiment_label
        .ok (if cfg.include_score then .labelScore l sentiment_score
             else .labelOnly l)
  | none => .ok .empty

/-- Models the factory `from_llm` (lines 176-201 of `base.py`).  The `llm` and
`custom_prompt_template` arguments only build the `LLMChain`, which the
embedding abstracts into the `llm` argument of `sentimentCall`, so they do not
appear here.  `from_llm` passes `sentiment_label_mapping` explicitly to the
constructor, and pydantic keeps an explicit `None` instead of applying the
`default_factory`, so the field is exactly the argument (its `from_llm`
default being `None`). -/
def from_llm (include_score : Bool) (output_format : String)
    (sentiment_label_mapping : Option (List (String × String)))
    (batch_processing : Bool) : SentimentAnalysisChain :=
  { include_score := include_score
    output_format := output_format
    sentiment_label_mapping := sentiment_label_mapping
    batch_processing := batch_processing }

/-- An observability event of `_call` / `_process_single_input`: the
`run_manager.on_text` call of line 88 (whose payload is the raw input value),
the `on_text` calls with string payloads (lines 105, 111, 135), the `print`
calls (lines 113-114), and the `on_text(str(sentiment), ...)` call of
line 136, whose payload is the sentiment dictionary. -/
inductive TraceEvent where
  | onTextVal (v : InputVal)
  | onTextStr (s : String)
  | stdout (s : String)
  | onTextSentiment (d : SentimentDict)

/-- Instrumented model of `_process_single_input`: identical to
`processSingleInput` but additionally threading the state of an arbitrary
observability sink through every `on_text` and `print` call, in source
order. -/
def processSingleSink {σ : Type} (emit : σ → TraceEvent → σ) (st : σ)
    (cfg : SentimentAnalysisChain) (llm : InputVal → String)
    (showFloat : ℚ → String) (text : InputVal) :
    Except ChainError ProcOutput × σ :=
  let st := emit st (.onTextVal text)
  let llm_output := llm text
  let st := emit st (.onTextStr llm_output)
  let st := emit st (.stdout "LLM Output:")
  let st := emit st (.stdout llm_output)
  match searchStrict llm_output with
  | some (g1, g2) =>
    let sentiment_label := pyStrip g1
    match pyFloat? (pyStrip g2) with
    | none => (.error (.parseError (pyStrip g2)), st)
    | some sentiment_score =>
      match cfg.sentiment_label_mapping with
      | none => (.error .attributeError, st)
      | some m =>
        let sentiment_label := (dictGet m sentiment_label).getD sentiment_label
        let sentiment := SentimentDict.labelScore sentiment_label sentiment_score
        let st :=
          if cfg.verbose then
            emit (emit st (.onTextStr "\nSentiment: ")) (.onTextSentiment sentiment)
          else st
        if pyLower cfg.output_format = "json" then
          (.ok (.json cfg.output_key sentiment), st)
        else if pyLower cfg.output_format = "text" then
          (.ok (.text ("Sentiment Label: " ++ sentiment_label ++
            "\nSentiment Score: " ++ showFloat sentiment_score)), st)
        else
          (.error (.unsupportedFormat cfg.output_format), st)
  | none => (.ok (.json cfg.output_key .empty), st)

/-- Instrumented model of the batch comprehension, threading the sink state
from element to element. -/
def processBatchSink {σ : Type} (emit : σ → TraceEvent → σ)
    (cfg : SentimentAnalysisChain) (llm : InputVal → String)
    (showFloat : ℚ → String) :
    List String → σ → Except ChainError (List ProcOutput) × σ
  | [], st => (.ok [], st)
  | t :: ts, st =>
    match processSingleSink emit st cfg llm showFloat (.str t) with
    | (.error e, st') => (.error e, st')
    | (.ok r, st') =>
      match processBatchSink emit cfg llm showFloat ts st' with
      | (.error e, st'') => (.error e, st'')
      | (.ok rs, st'') => (.ok (r :: rs), st'')

/-- Instrumented model of `_call`, threading an arbitrary observability sink
(a state type `σ` with an update per event) through the run. -/
def sentimentCallSink {σ : Type} (emit : σ → TraceEvent → σ) (st : σ)
    (cfg : SentimentAnalysisChain) (llm : InputVal → String)
    (showFloat : ℚ → String) : InputVal → Except ChainError CallOutput × σ
  | .list l =>
    let st := emit st (.onTextVal (.list l))
    if cfg.batch_processing then
      match processBatchSink emit cfg llm showFloat l st with
      | (.error e, st') => (.error e, st')
      | (.ok rs, st') => (.ok (.batch rs), st')
    else
      match processSingleSink emit st cfg llm showFloat (.list l) with
      | (.error e, st') => (.error e, st')
      | (.ok r, st') => (.ok (.single r), st')
  | .str s =>
    let st := emit st (.onTextVal (.str s))
    match processSingleSink emit st cfg llm showFloat (.str s) with
    | (.error e, st') => (.error e, st')
    | (.ok r, st') => (.ok (.single r), st')

theorem processSingleInput_matched (cfg : SentimentAnalysisChain)
    (llm : InputVal → String) (showFloat : ℚ → String) (v : InputVal)
    (g1 g2 : String) (q : ℚ) (m : List (String × String))
    (hm : cfg.sentiment_label_mapping = some m)
    (hs : searchStrict (llm v) = some (g1, g2))
    (hq : pyFloat? (pyStrip g2) = some q) :
    processSingleInput cfg llm showFloat v =
      (if pyLower cfg.output_format = "json" then
        .ok (.json cfg.output_key
          (.labelScore ((dictGet m (pyStrip g1)).getD (pyStrip g1)) q))
      else if pyLower cfg.output_format = "text" then
        .ok (.text ("Sentiment Label: " ++
          (dictGet m (pyStrip g1)).getD (pyStrip g1) ++
          "\nSentiment Score: " ++ showFloat q))
      else .error (.unsupportedFormat cfg.output_format)) := by
  unfold processSingleInput
  simp only [hs, hq, hm]

theorem processSingleSink_fst {σ : Type} (emit : σ → TraceEvent → σ) (st : σ)
    (cfg : SentimentAnalysisChain) (llm : InputVal → String)
    (showFloat : ℚ → String) (text : InputVal) :
    (processSingleSink emit st cfg llm showFloat text).1 =
      processSingleInput cfg llm showFloat text := by
  unfold processSingleSink processSingleInput
  cases hs : searchStrict (llm text) with
  | none => simp [hs]
  | some p =>
    obtain ⟨g1, g2⟩ := p
    cases hq : pyFloat? (pyStrip g2) with
    | none => simp [hs, hq]
    | some q =>
      cases hm : cfg.sentiment_label_mapping with
      | none => simp [hs, hq, hm]
      | some m =>
        simp only [hs, hq, hm]
        split <;> split <;> simp

theorem processBatchSink_fst {σ : Type} (emit : σ → TraceEvent → σ)
    (cfg : SentimentAnalysisChain) (llm : InputVal → String)
    (showFloat : ℚ → String) (l : List String) :
    ∀ st : σ, (processBatchSink emit cfg llm showFloat l st).1 =
      processBatch cfg llm showFloat l := by
  induction l with
  | nil => intro st; rfl
  | cons t ts ih =>
    intro st
    unfold processBatchSink processBatch
    have h1 := processSingleSink_fst emit st cfg llm showFloat (.str t)
    cases hp : processSingleSink emit st cfg llm showFloat (.str t) with
    | mk r st' =>
      rw [hp] at h1
      try simp only [hp]
      cases r with
      | error e => simp [← h1]
      | ok r0 =>
        have h2 := ih st'
        cases hb : processBatchSink emit cfg llm showFloat ts st' with
        | mk rs st'' =>
          rw [hb] at h2
          try simp only [hb]
          cases rs with
          | error e => simp [← h1, ← h2]
          | ok rs0 => simp [← h1, ← h2]

theorem sentimentCallSink_fst {σ : Type} (emit : σ → TraceEvent → σ) (st : σ)
    (cfg : SentimentAnalysisChain) (llm : InputVal → String)
    (showFloat : ℚ → String) (v : InputVal) :
    (sentimentCallSink emit st cfg llm showFloat v).1 =
      sentimentCall cfg llm showFloat v := by
  cases v with
  | str s =>
    unfold sentimentCallSink sentimentCall
    have h1 := processSingleSink_fst emit (emit st (.onTextVal (.str s)))
      cfg llm showFloat (.str s)
    cases hp : processSingleSink emit (emit st (.onTextVal (.str s)))
        cfg llm showFloat (.str s) with
    | mk r st' =>
      rw [hp] at h1
      try simp only [hp]
      cases r with
      | error e => simp [← h1, Except.map]
      | ok r0 => simp [← h1, Except.map]
  | list l =>
    unfold sentimentCallSink sentimentCall
    by_cases hb : cfg.batch_processing = true
    · simp only [hb, if_true]
      have h2 := processBatchSink_fst emit cfg llm showFloat l
        (emit st (.onTextVal (.list l)))
      cases hp : processBatchSink emit cfg llm showFloat l
          (emit st (.onTextVal (.list l))) with
      | mk rs st' =>
        rw [hp] at h2
        try simp only [hp]
        cases rs with
        | error e => simp [← h2, Except.map]
        | ok rs0 => simp [← h2, Except.map]
    · simp only [hb, if_false]
      have h1 := processSingleSink_fst emit (emit st (.onTextVal (.list l)))
        cfg llm showFloat (.list l)
      cases hp : processSingleSink emit (emit st (.onTextVal (.list l)))
          cfg llm showFloat (.list l) with
      | mk r st' =>
        rw [hp] at h1
        try simp only [hp]
        cases r with
        | error e => simp [← h1, Except.map]
        | ok r0 => simp [← h1, Except.map]

theorem isWordChar_ne_newline {c : Char} (h : isWordChar c = true) : ¬(c = '\n') := by
  intro he
  subst he
  exact absurd h (by decide)

theorem permissiveFrom_isSome (lab : List Char) :
    ∀ (c : Char) (accRev r2 sc : List Char),
      isWordChar c = true → (∀ x ∈ lab, isWordChar x = true) →
      scoreTail r2 = some sc →
      (permissiveFrom accRev (c :: (lab ++ r2))).isSome = true := by
  induction lab with
  | nil =>
    intro c accRev r2 sc hc _ hsc
    unfold permissiveFrom
    rw [if_neg (isWordChar_ne_newline hc)]
    simp only [List.nil_append, hsc, Option.isSome_some]
  | cons c' lab' ih =>
    intro c accRev r2 sc hc hall hsc
    unfold permissiveFrom
    rw [if_neg (isWordChar_ne_newline hc)]
    cases h2 : scoreTail (c' :: lab' ++ r2) with
    | some sc' => simp
    | none =>
      exact ih c' (c :: accRev) r2 sc (hall c' (by simp))
        (fun x hx => hall x (by simp [hx])) hsc

theorem matchPermissiveAt_of_strict {l : List Char} {p : List Char × List Char}
    (h : matchStrictAt l = some p) : (matchPermissiveAt l).isSome = true := by
  unfold matchStrictAt at h
  unfold matchPermissiveAt
  cases h1 : stripPrefixChars headerChars l with
  | none => rw [h1] at h; exact absurd h (by simp)
  | some r =>
    rw [h1] at h
    simp only at h
    by_cases he : (r.takeWhile isWordChar).isEmpty
    · rw [if_pos he] at h; exact absurd h (by simp)
    · rw [if_neg he] at h
      cases h2 : scoreTail (r.dropWhile isWordChar) with
      | none => rw [h2] at h; exact absurd h (by simp)
      | some sc =>
        cases hlab : r.takeWhile isWordChar with
        | nil => rw [hlab] at he; exact absurd rfl he
        | cons c labrest =>
          have hr : r = c :: (labrest ++ r.dropWhile isWordChar) := by
            conv_lhs => rw [← List.takeWhile_append_dropWhile (p := isWordChar) (l := r)]
            rw [hlab]
            simp
          rw [hr]
          exact permissiveFrom_isSome labrest c []
            (r.dropWhile isWordChar) sc
            (List.mem_takeWhile_imp (l := r) (hlab ▸ List.mem_cons_self c labrest))
            (fun x hx => List.mem_takeWhile_imp (l := r)
              (hlab ▸ List.mem_cons_of_mem c hx))
            h2

theorem searchPermissiveAux_of_strict :
    ∀ l : List Char, (searchStrictAux l).isSome = true →
      (searchPermissiveAux l).isSome = true := by
  intro l
  induction l with
  | nil => intro h; exact absurd h (by simp [searchStrictAux])
  | cons c rest ih =>
    intro h
    unfold searchPermissiveAux
    unfold searchStrictAux at h
    cases hm : matchStrictAt (c :: rest) with
    | some p =>
      have := matchPermissiveAt_of_strict hm
      cases hp : matchPermissiveAt (c :: rest) with
      | none => rw [hp] at this; exact absurd this (by simp)
      | some p' => simp
    | none =>
      rw [hm] at h
      cases hp : matchPermissiveAt (c :: rest) with
      | none => exact ih h
      | some p' => simp

theorem sentimentCall_list (cfg : SentimentAnalysisChain)
    (llm : InputVal → String) (showFloat : ℚ → String) (l : List String) :
    sentimentCall cfg llm showFloat (.list l) =
      if cfg.batch_processing = true then
        (processBatch cfg llm showFloat l).map CallOutput.batch
      else
        (processSingleInput cfg llm showFloat (.list l)).map CallOutput.single := rfl

theorem sentimentCall_str (cfg : SentimentAnalysisChain)
    (llm : InputVal → String) (showFloat : ℚ → String) (s : String) :
    sentimentCall cfg llm showFloat (.str s) =
      (processSingleInput cfg llm showFloat (.str s)).map .single := rfl

/-- C1: for every input text whose model response is exactly
`"Sentiment: Positive (Score: 0.87)"`, `run` with `outputFormat="json"` (and
the default output key and empty label mapping) returns the structured value
`{sentiment: {sentiment_label: "Positive", sentiment_score: 0.87}}`. -/
theorem run_json_positive_score_claim (cfg : SentimentAnalysisChain)
    (llm : InputVal → String) (showFloat : ℚ → String) (t : String)
    (hfmt : cfg.output_format = "json")
    (hkey : cfg.output_key = "sentiment")
    (hmap : cfg.sentiment_label_mapping = some [])
    (hllm : llm (.str t) = "Sentiment: Positive (Score: 0.87)") :
    sentimentCall cfg llm showFloat (.str t) =
      .ok (.single (.json "sentiment" (.labelScore "Positive" (0.87 : ℚ)))) := by
  rw [sentimentCall_str]
  simp only [processSingleInput, hllm, hmap, hfmt, hkey]
  rfl

/-- Witness for C1 at the default configuration and a concrete input. -/
theorem run_json_positive_score_claim_witness :
    sentimentCall {} (fun _ => "Sentiment: Positive (Score: 0.87)")
      (fun _ => "") (.str "I love it") =
      .ok (.single (.json "sentiment" (.labelScore "Positive" (0.87 : ℚ)))) :=
  run_json_positive_score_claim {} (fun _ => "Sentiment: Positive (Score: 0.87)")
    (fun _ => "") "I love it" rfl rfl rfl rfl

/-- C2, counterexample: with `output_format = "xml"` (recognized by neither
branch) and a model response with no pattern match, `run` does not fail — it
returns the empty structure.  The format check on lines 140-145 of `base.py`
sits inside the `if match:` branch, so the claim's "regardless of whether the
model response matches" is false. -/
theorem unsupported_format_counterexample :
    sentimentCall ({ output_format := "xml" } : SentimentAnalysisChain)
      (fun _ => "hello") (fun _ => "") (.str "any text") =
      .ok (.single (.json "sentiment" .empty)) ∧
    "xml" ≠ "json" ∧ "xml" ≠ "text" :=
  ⟨rfl, by decide, by decide⟩

/-- C2, amended: when the lower-cased `output_format` is neither `"json"` nor
`"text"`, `run` fails with the `ValueError` naming the unsupported value
whenever the model response matches the extraction pattern, its score parses,
and the label mapping is present; on an extraction miss it instead returns the
empty structure without failing. -/
theorem unsupported_format_error_on_match (cfg : SentimentAnalysisChain)
    (llm : InputVal → String) (showFloat : ℚ → String) (t : String)
    (g1 g2 : String) (q : ℚ) (m : List (String × String))
    (hm : cfg.sentiment_label_mapping = some m)
    (hs : searchStrict (llm (.str t)) = some (g1, g2))
    (hq : pyFloat? (pyStrip g2) = some q)
    (hj : pyLower cfg.output_format ≠ "json")
    (ht : pyLower cfg.output_format ≠ "text") :
    sentimentCall cfg llm showFloat (.str t) =
      .error (.unsupportedFormat cfg.output_format) := by
  have h := processSingleInput_matched cfg llm showFloat (.str t) g1 g2 q m hm hs hq
  rw [if_neg hj, if_neg ht] at h
  rw [sentimentCall_str, h]
  rfl

/-- Witness for C2's amended theorem at a concrete matching input. -/
theorem unsupported_format_error_on_match_witness :
    sentimentCall ({ output_format := "xml" } : SentimentAnalysisChain)
      (fun _ => "Sentiment: A (Score: 1)") (fun _ => "") (.str "x") =
      .error (.unsupportedFormat "xml") :=
  unsupported_format_error_on_match ({ output_format := "xml" } : SentimentAnalysisChain)
    (fun _ => "Sentiment: A (Score: 1)") (fun _ => "") "x" "A" "1"
    ((1 : ℕ) : ℚ) [] rfl rfl rfl (by decide) (by decide)

/-- C4: for every model response with no substring matching the strict
pattern, `run` does not raise: it returns the empty structure keyed under the
output key. -/
theorem no_match_returns_empty_structure (cfg : SentimentAnalysisChain)
    (llm : InputVal → String) (showFloat : ℚ → String) (t : String)
    (h : searchStrict (llm (.str t)) = none) :
    sentimentCall cfg llm showFloat (.str t) =
      .ok (.single (.json cfg.output_key .empty)) := by
  rw [sentimentCall_str]
  simp only [processSingleInput, h]
  rfl

/-- Witness for C4 at a concrete non-matching response. -/
theorem no_match_returns_empty_structure_witness :
    sentimentCall {} (fun _ => "hello") (fun _ => "") (.str "x") =
      .ok (.single (.json ({} : SentimentAnalysisChain).output_key .empty)) :=
  no_match_returns_empty_structure {} (fun _ => "hello") (fun _ => "") "x" rfl

/-- C3, counterexample: with `include_score = false` and a matching response,
the chain's run path still returns a result carrying the score field — lines
129-132 of `base.py` build the sentiment dictionary with both fields without
consulting `include_score`. -/
theorem include_score_ignored_counterexample :
    sentimentCall ({ include_score := false } : SentimentAnalysisChain)
      (fun _ => "Sentiment: Positive (Score: 5)") (fun _ => "") (.str "x") =
      .ok (.single (.json "sentiment" (.labelScore "Positive" ((5 : ℕ) : ℚ)))) ∧
    hasScoreField (.labelScore "Positive" ((5 : ℕ) : ℚ)) = true :=
  ⟨rfl, rfl⟩

/-- C3, amended: the helper `process_llm_results` honors `include_score` — its
successful result carries the score field iff `include_score` is true and the
(permissive) extraction matched — but the chain's run path ignores it: every
structured result `_process_single_input` returns is either empty or carries
both label and score. -/
theorem include_score_field_presence :
    (∀ (cfg : SentimentAnalysisChain) (t : String) (d : SentimentDict),
      process_llm_results cfg t = .ok d →
      (hasScoreField d = true ↔
        (cfg.include_score = true ∧ (searchPermissive t).isSome = true))) ∧
    (∀ (cfg : SentimentAnalysisChain) (llm : InputVal → String)
      (showFloat : ℚ → String) (v : InputVal) (key : String) (d : SentimentDict),
      processSingleInput cfg llm showFloat v = .ok (.json key d) →
      d = .empty ∨ hasScoreField d = true) := by
  constructor
  · intro cfg t d h
    unfold process_llm_results at h
    cases hp : searchPermissive t with
    | none =>
      rw [hp] at h
      simp only [Except.ok.injEq] at h
      subst h
      simp [hasScoreField, hp]
    | some p =>
      obtain ⟨g1, g2⟩ := p
      rw [hp] at h
      simp only at h
      cases hq : pyFloat? (pyStrip g2) with
      | none => rw [hq] at h; exact absurd h (by simp)
      | some q =>
        rw [hq] at h
        cases hm : cfg.sentiment_label_mapping with
        | none => rw [hm] at h; exact absurd h (by simp)
        | some m =>
          rw [hm] at h
          simp only [Except.ok.injEq] at h
          subst h
          cases hinc : cfg.include_score with
          | false => simp [hinc, hasScoreField, hp]
          | true => simp [hinc, hasScoreField, hp]
  · intro cfg llm showFloat v key d h
    cases hs : searchStrict (llm v) with
    | none =>
      have he : processSingleInput cfg llm showFloat v =
          .ok (.json cfg.output_key .empty) := by
        simp only [processSingleInput, hs]
      rw [he] at h
      simp only [Except.ok.injEq, ProcOutput.json.injEq] at h
      exact Or.inl h.2.symm
    | some p =>
      obtain ⟨g1, g2⟩ := p
      cases hq : pyFloat? (pyStrip g2) with
      | none =>
        have he : processSingleInput cfg llm showFloat v =
            .error (.parseError (pyStrip g2)) := by
          simp only [processSingleInput, hs, hq]
        rw [he] at h
        exact absurd h (by simp)
      | some q =>
        cases hm : cfg.sentiment_label_mapping with
        | none =>
          have he : processSingleInput cfg llm showFloat v =
              .error .attributeError := by
            simp only [processSingleInput, hs, hq, hm]
          rw [he] at h
          exact absurd h (by simp)
        | some m =>
          have he := processSingleInput_matched cfg llm showFloat v g1 g2 q m hm hs hq
          rw [he] at h
          split at h
          · simp only [Except.ok.injEq, ProcOutput.json.injEq] at h
            rw [← h.2]
            exact Or.inr rfl
          · split at h
            · exact absurd h (by simp)
            · exact absurd h (by simp)

/-- Witness for C3's amended theorem: the helper on a non-matching text. -/
theorem include_score_field_presence_witness :
    hasScoreField SentimentDict.empty = true ↔
      (({} : SentimentAnalysisChain).include_score = true ∧
        (searchPermissive "abc").isSome = true) :=
  include_score_field_presence.1 {} "abc" .empty rfl

/-- C6: on a successful extraction the result label is the stripped capture
passed through `sentiment_label_mapping`: mapped when the label is a key
(`dictGet` finds it), unchanged otherwise — `Option.getD` is exactly
`dict.get(label, label)` from line 125 of `base.py`. -/
theorem label_mapping_applied (cfg : SentimentAnalysisChain)
    (llm : InputVal → String) (showFloat : ℚ → String) (t : String)
    (g1 g2 : String) (q : ℚ) (m : List (String × String))
    (hm : cfg.sentiment_label_mapping = some m)
    (hfmt : pyLower cfg.output_format = "json")
    (hs : searchStrict (llm (.str t)) = some (g1, g2))
    (hq : pyFloat? (pyStrip g2) = some q) :
    sentimentCall cfg llm showFloat (.str t) =
      .ok (.single (.json cfg.output_key
        (.labelScore ((dictGet m (pyStrip g1)).getD (pyStrip g1)) q))) := by
  have h := processSingleInput_matched cfg llm showFloat (.str t) g1 g2 q m hm hs hq
  rw [if_pos hfmt] at h
  rw [sentimentCall_str, h]
  rfl

/-- Witness for C6: mapping `{"Positive": "POS"}` remaps a matching response's
label to `"POS"`. -/
theorem label_mapping_applied_witness :
    sentimentCall
      ({ sentiment_label_mapping := some [("Positive", "POS")] } :
        SentimentAnalysisChain)
      (fun _ => "Sentiment: Positive (Score: 1)") (fun _ => "") (.str "x") =
      .ok (.single (.json "sentiment" (.labelScore "POS" ((1 : ℕ) : ℚ)))) :=
  label_mapping_applied
    ({ sentiment_label_mapping := some [("Positive", "POS")] } :
      SentimentAnalysisChain)
    (fun _ => "Sentiment: Positive (Score: 1)") (fun _ => "") "x"
    "Positive" "1" ((1 : ℕ) : ℚ) [("Positive", "POS")] rfl rfl rfl rfl

/-- C7: with `output_format = "text"`, a successful extraction yields exactly
the two-line string `"Sentiment Label: <label>\nSentiment Score: <score>"`,
where the label is the (possibly remapped) stripped capture and the score is
the parsed score rendered by `str()` (modelled by `showFloat`). -/
theorem text_format_exact_output (cfg : SentimentAnalysisChain)
    (llm : InputVal → String) (showFloat : ℚ → String) (t : String)
    (g1 g2 : String) (q : ℚ) (m : List (String × String))
    (hm : cfg.sentiment_label_mapping = some m)
    (hfmt : cfg.output_format = "text")
    (hs : searchStrict (llm (.str t)) = some (g1, g2))
    (hq : pyFloat? (pyStrip g2) = some q) :
    sentimentCall cfg llm showFloat (.str t) =
      .ok (.single (.text ("Sentiment Label: " ++
        (dictGet m (pyStrip g1)).getD (pyStrip g1) ++
        "\nSentiment Score: " ++ showFloat q))) := by
  have h := processSingleInput_matched cfg llm showFloat (.str t) g1 g2 q m hm hs hq
  rw [hfmt] at h
  rw [if_neg (by decide), if_pos (by decide)] at h
  rw [sentimentCall_str, h]
  rfl

/-- Witness for C7 at a concrete matching response. -/
theorem text_format_exact_output_witness :
    sentimentCall ({ output_format := "text" } : SentimentAnalysisChain)
      (fun _ => "Sentiment: Good (Score: 1)") (fun _ => "5") (.str "x") =
      .ok (.single (.text ("Sentiment Label: " ++ "Good" ++
        "\nSentiment Score: " ++ "5"))) :=
  text_format_exact_output ({ output_format := "text" } : SentimentAnalysisChain)
    (fun _ => "Sentiment: Good (Score: 1)") (fun _ => "5") "x" "Good" "1"
    ((1 : ℕ) : ℚ) [] rfl rfl rfl rfl

/-- C5: with batch processing enabled, `run` on a list of texts returns one
result per text in input order — the per-element results of the single-text
procedure, via `List.map` — and an extraction miss yields the empty structure
for that element only, leaving the others as their own single-text results. -/
theorem batch_order_and_isolation (cfg : SentimentAnalysisChain)
    (llm : InputVal → String) (showFloat : ℚ → String) (l : List String)
    (f : String → ProcOutput)
    (hb : cfg.batch_processing = true)
    (hok : ∀ t ∈ l, processSingleInput cfg llm showFloat (.str t) = .ok (f t)) :
    sentimentCall cfg llm showFloat (.list l) = .ok (.batch (l.map f)) ∧
    (∀ t ∈ l, searchStrict (llm (.str t)) = none →
      f t = .json cfg.output_key .empty) := by
  constructor
  · have key : ∀ ls : List String,
        (∀ t ∈ ls, processSingleInput cfg llm showFloat (.str t) = .ok (f t)) →
        processBatch cfg llm showFloat ls = .ok (ls.map f) := by
      intro ls
      induction ls with
      | nil => intro _; rfl
      | cons t ts ih =>
        intro hls
        unfold processBatch
        rw [hls t (by simp), ih (fun x hx => hls x (by simp [hx]))]
        rfl
    rw [sentimentCall_list, if_pos hb, key l hok]
    rfl
  · intro t ht hnone
    have h1 := hok t ht
    have he : processSingleInput cfg llm showFloat (.str t) =
        .ok (.json cfg.output_key .empty) := by
      simp only [processSingleInput, hnone]
    rw [he] at h1
    simp only [Except.ok.injEq] at h1
    exact h1.symm

/-- Witness for C5: three texts where the second response has no match; the
batch result lists the two extractions and the middle empty structure in
input order. -/
theorem batch_order_and_isolation_witness :
    sentimentCall ({ batch_processing := true } : SentimentAnalysisChain)
      (fun v => if v = .str "a" then "Sentiment: Good (Score: 5)"
                else if v = .str "c" then "Sentiment: Bad (Score: 7)"
                else "nope")
      (fun _ => "") (.list ["a", "b", "c"]) =
      .ok (.batch [.json "sentiment" (.labelScore "Good" ((5 : ℕ) : ℚ)),
        .json "sentiment" .empty,
        .json "sentiment" (.labelScore "Bad" ((7 : ℕ) : ℚ))]) :=
  (batch_order_and_isolation ({ batch_processing := true } : SentimentAnalysisChain)
    (fun v => if v = .str "a" then "Sentiment: Good (Score: 5)"
              else if v = .str "c" then "Sentiment: Bad (Score: 7)"
              else "nope")
    (fun _ => "") ["a", "b", "c"]
    (fun t => if t = "a" then .json "sentiment" (.labelScore "Good" ((5 : ℕ) : ℚ))
              else if t = "c" then .json "sentiment" (.labelScore "Bad" ((7 : ℕ) : ℚ))
              else .json "sentiment" .empty)
    rfl
    (List.forall_mem_cons.mpr ⟨rfl, List.forall_mem_cons.mpr ⟨rfl,
      List.forall_mem_cons.mpr ⟨rfl, List.forall_mem_nil _⟩⟩⟩)).1

/-- C8: `run` is deterministic and its observability events are advisory: for
any two observability sinks (any state types, any update functions, any
initial states), the returned value is the same, and equals the value of the
event-free model. -/
theorem run_sink_independent_deterministic {σ₁ σ₂ : Type}
    (e₁ : σ₁ → TraceEvent → σ₁) (e₂ : σ₂ → TraceEvent → σ₂)
    (s₁ : σ₁) (s₂ : σ₂) (cfg : SentimentAnalysisChain)
    (llm : InputVal → String) (showFloat : ℚ → String) (v : InputVal) :
    (sentimentCallSink e₁ s₁ cfg llm showFloat v).1 =
      (sentimentCallSink e₂ s₂ cfg llm showFloat v).1 ∧
    (sentimentCallSink e₁ s₁ cfg llm showFloat v).1 =
      sentimentCall cfg llm showFloat v := by
  have h1 := sentimentCallSink_fst e₁ s₁ cfg llm showFloat v
  have h2 := sentimentCallSink_fst e₂ s₂ cfg llm showFloat v
  exact ⟨h1.trans h2.symm, h1⟩

/-- C9: the permissive multi-word grammar used by `process_llm_results` is
strictly more general than the strict single-token grammar used by the chain's
run path: every response the strict pattern matches is matched by the
permissive pattern, and `"Sentiment: very good (Score: 0.9)"` is matched by
the permissive pattern but not by the strict one. -/
theorem strict_grammar_subsumed_by_permissive :
    (∀ s : String, (searchStrict s).isSome = true →
      (searchPermissive s).isSome = true) ∧
    (searchPermissive "Sentiment: very good (Score: 0.9)").isSome = true ∧
    searchStrict "Sentiment: very good (Score: 0.9)" = none := by
  refine ⟨?_, by decide, by decide⟩
  intro s h
  unfold searchStrict at h
  unfold searchPermissive
  rw [Option.isSome_map'] at h ⊢
  exact searchPermissiveAux_of_strict s.data h

/-- Witness for C9's inclusion at a concrete strict match. -/
theorem strict_grammar_subsumed_by_permissive_witness :
    (searchPermissive "Sentiment: Positive (Score: 0.87)").isSome = true :=
  strict_grammar_subsumed_by_permissive.1 "Sentiment: Positive (Score: 0.87)"
    (by decide)

/-- C10, counterexample: a chain built by `from_llm` with the default mapping,
on the response `"Sentiment: A (Score: .)"` — the extraction pattern matches,
but `run` fails at the score-parsing step (`float(".")` raises `ValueError`),
not at the label-remapping step, so "for every model response on which the
extraction pattern matches, run fails ... at the label-remapping step" is
false as stated. -/
theorem from_llm_parse_error_counterexample :
    sentimentCall (from_llm false "json" none false)
      (fun _ => "Sentiment: A (Score: .)") (fun _ => "") (.str "x") =
      .error (.parseError ".") ∧
    ChainError.parseError "." ≠ ChainError.attributeError ∧
    searchStrict "Sentiment: A (Score: .)" = some ("A", ".") :=
  ⟨rfl, by decide, by decide⟩

/-- C10, amended: `from_llm` without a supplied mapping leaves
`sentiment_label_mapping` as `None` rather than the empty mapping, and then
for every model response on which the extraction pattern matches and whose
score text parses as a number, `run` fails at the label-remapping step with an
`AttributeError` instead of returning a result (a malformed score fails one
step earlier, with `float()`'s `ValueError`). -/
theorem from_llm_mapping_none_fatal :
    (∀ (inc : Bool) (fmt : String) (bat : Bool),
      (from_llm inc fmt none bat).sentiment_label_mapping = none) ∧
    (∀ (inc : Bool) (fmt : String) (bat : Bool) (llm : InputVal → String)
      (showFloat : ℚ → String) (t : String) (g1 g2 : String) (q : ℚ),
      searchStrict (llm (.str t)) = some (g1, g2) →
      pyFloat? (pyStrip g2) = some q →
      sentimentCall (from_llm inc fmt none bat) llm showFloat (.str t) =
        .error .attributeError) := by
  constructor
  · intro inc fmt bat
    rfl
  · intro inc fmt bat llm showFloat t g1 g2 q hs hq
    rw [sentimentCall_str]
    have he : processSingleInput (from_llm inc fmt none bat) llm showFloat
        (.str t) = .error .attributeError := by
      simp only [processSingleInput, hs, hq, from_llm]
    rw [he]
    rfl

/-- Witness for C10's amended theorem at a concrete matching response. -/
theorem from_llm_mapping_none_fatal_witness :
    sentimentCall (from_llm false "json" none false)
      (fun _ => "Sentiment: A (Score: 1)") (fun _ => "") (.str "x") =
      .error .attributeError :=
  from_llm_mapping_none_fatal.2 false "json" false
    (fun _ => "Sentiment: A (Score: 1)") (fun _ => "") "x" "A" "1"
    ((1 : ℕ) : ℚ) rfl rfl
